import Mathlib

/-!
Shallow embedding of the rustack interpreter (src/main.rs).

Conventions of the embedding:
* The Rust `Vec<Value>` operand stack pushes/pops at the END of the vector;
  here it is a `List Value` with the TOP AT THE HEAD (push = cons).
  Likewise `blocks : Vec<Vec<Value>>` becomes a list whose HEAD is the
  innermost in-progress block; the content of one in-progress block stays in
  source order (append at the end).
* `HashMap<String, Value>` becomes an association list with
  overwrite-on-insert; only `lookup`/`insert` are observable in the source.
* Rust panics become the `Err` enumeration: one constructor per distinct
  panic site/message of the source (`unwrap` on an empty pop, the three
  `Value` accessor panics, the `expect` in `parse_word`, division by zero,
  and checked-arithmetic overflow — the profiles used by `cargo run` /
  `cargo test` check `i32` overflow).
* `NativeOp` holds a function pointer; two `NativeOp`s are equal iff they
  denote the same built-in, so it is embedded as an enumeration tag of the
  ten built-ins, dispatched by `runNative`.
* Recursion in `eval` (bound blocks, `if`, `def`) is a priori unbounded, so
  the evaluator is fuel-indexed; `Res.fuel` marks fuel exhaustion and is
  distinct from every real outcome of the program.
* The `println!` debug traces in `eval`/`parse_batch` are the excluded
  logging collaborator and are not modelled; the output of `puts` (the one
  output the language itself produces) is collected in `Vm.output`.
-/

namespace Rustack

/-- The ten built-ins installed by `Vm::new` (fn pointers in the source). -/
inductive NativeTag where
  | add | sub | mul | div | lt | opIf | opDef | puts | dup | exch
deriving DecidableEq

/-- `enum Value` of the source. `Num` carries an `i32`, embedded as `Int`
with the `i32` range tracked where it matters. -/
inductive Value where
  | num (n : Int)
  | op (s : String)
  | sym (s : String)
  | block (vals : List Value)
  | native (t : NativeTag)

/-- One constructor per distinct panic site/message of the source. -/
inductive Err where
  | stackUnderflow   -- `vm.stack.pop().unwrap()` / `vm.stack.last().unwrap()` on empty
  | notNumber        -- `as_num`: "Value is not a number"
  | notBlock         -- `to_block`: "Value is not a block"
  | notSymbol        -- `as_sym`: "Value is not a symbol"
  | malformedBlock   -- `expect("block stack is empty")` in `parse_word`
  | divisionByZero   -- `lhs / rhs` with `rhs == 0`
  | overflow         -- checked i32 arithmetic overflow
deriving DecidableEq

/-- `struct Vm`, plus the collected `puts` output. -/
structure Vm where
  stack : List Value
  vars : List (String × Value)
  blocks : List (List Value)
  output : List String

/-- Outcome of running a piece of the interpreter. -/
inductive Res where
  | ok (vm : Vm)
  | err (e : Err)
  | fuel            -- fuel ran out: not an outcome of the real program

/-- Sequencing: propagate errors and fuel exhaustion. -/
def Res.bind (r : Res) (k : Vm → Res) : Res :=
  match r with
  | .ok vm => k vm
  | r => r

/-- `HashMap::get`. -/
def varLookup (vars : List (String × Value)) (key : String) : Option Value :=
  match vars with
  | [] => none
  | (k, v) :: rest => if k = key then some v else varLookup rest key

/-- `HashMap::insert` (overwrites any previous binding of `key`). -/
def varInsert (vars : List (String × Value)) (key : String) (val : Value) :
    List (String × Value) :=
  (key, val) :: vars.filter (fun kv => kv.1 != key)

/-- `Value::as_num` (panics: "Value is not a number"). -/
def Value.as_num : Value → Except Err Int
  | .num val => .ok val
  | _ => .error .notNumber

/-- `Value::to_block` (panics: "Value is not a block"). -/
def Value.to_block : Value → Except Err (List Value)
  | .block val => .ok val
  | _ => .error .notBlock

/-- `Value::as_sym` (panics: "Value is not a symbol"). -/
def Value.as_sym : Value → Except Err String
  | .sym s => .ok s
  | _ => .error .notSymbol

/-- `Value::to_string`. -/
def Value.to_string : Value → String
  | .num i => toString i
  | .op s => s
  | .sym s => s
  | .block _ => "<Block>"
  | .native _ => "<Native>"

/-- The signed 32-bit range. -/
abbrev inI32 (n : Int) : Prop := -(2 ^ 31) ≤ n ∧ n < 2 ^ 31

/-- Checked i32 arithmetic: out-of-range results panic in the checked
profiles the repository is built with. -/
def checkI32 (n : Int) : Except Err Int :=
  if inI32 n then .ok n else .error .overflow

/-- Body of the `impl_op!` macro: pop `rhs`, read it as a number, pop `lhs`,
read it as a number, push the combined result. -/
def impl_op (f : Int → Int → Except Err Int) (vm : Vm) : Res :=
  match vm.stack with
  | [] => .err .stackUnderflow
  | rhsV :: stack1 =>
    match rhsV.as_num with
    | .error e => .err e
    | .ok rhs =>
      match stack1 with
      | [] => .err .stackUnderflow
      | lhsV :: stack2 =>
        match lhsV.as_num with
        | .error e => .err e
        | .ok lhs =>
          match f lhs rhs with
          | .error e => .err e
          | .ok n => .ok { vm with stack := .num n :: stack2 }

/-- `impl_op!(add, +)` -/
def add : Vm → Res := impl_op (fun lhs rhs => checkI32 (lhs + rhs))

/-- `impl_op!(sub, -)` -/
def sub : Vm → Res := impl_op (fun lhs rhs => checkI32 (lhs - rhs))

/-- `impl_op!(mul, *)` -/
def mul : Vm → Res := impl_op (fun lhs rhs => checkI32 (lhs * rhs))

/-- `impl_op!(div, /)`: Rust `/` on `i32` truncates toward zero
(`Int.tdiv`), panics on a zero divisor, and panics on `i32::MIN / -1`. -/
def div : Vm → Res :=
  impl_op (fun lhs rhs =>
    if rhs = 0 then .error .divisionByZero else checkI32 (Int.tdiv lhs rhs))

/-- `impl_op!(lt, <)`: `(lhs < rhs) as i32` is `1` or `0`. -/
def lt : Vm → Res :=
  impl_op (fun lhs rhs => .ok (if lhs < rhs then 1 else 0))

/-- `fn dup`: `vm.stack.last().unwrap()` then push a clone. -/
def dup (vm : Vm) : Res :=
  match vm.stack with
  | [] => .err .stackUnderflow
  | value :: _ => .ok { vm with stack := value :: vm.stack }

/-- `fn exch`: pop `last`, pop `second`, push `last`, push `second`. -/
def exch (vm : Vm) : Res :=
  match vm.stack with
  | last :: second :: rest => .ok { vm with stack := second :: last :: rest }
  | _ => .err .stackUnderflow

/-- `fn puts`: pop and render to the output collaborator. -/
def puts (vm : Vm) : Res :=
  match vm.stack with
  | [] => .err .stackUnderflow
  | value :: rest =>
    .ok { vm with stack := rest, output := vm.output ++ [value.to_string] }

mutual

/-- `fn eval`. The debug printing at its head is the excluded logging
collaborator. If an in-progress block exists, the value is appended to the
innermost one; non-operators are pushed; operators are resolved in `vars`
(block → run its contents, native → dispatch, other → push); an unresolved
operator name falls off the end of the function: the state is returned
unchanged. -/
def eval : Nat → Value → Vm → Res
  | 0, _, _ => .fuel
  | fuel + 1, code, vm =>
    match vm.blocks with
    | top_block :: rest => .ok { vm with blocks := (top_block ++ [code]) :: rest }
    | [] =>
      match code with
      | .op opName =>
        match varLookup vm.vars opName with
        | some (.block b) => evalList fuel b vm
        | some (.native t) => runNative fuel t vm
        | some val => .ok { vm with stack := val :: vm.stack }
        | none => .ok vm
      | _ => .ok { vm with stack := code :: vm.stack }
termination_by structural fuel _ _ => fuel

/-- The `for code in block { eval(code, vm) }` loops of the source. -/
def evalList : Nat → List Value → Vm → Res
  | _, [], vm => .ok vm
  | 0, _ :: _, _ => .fuel
  | fuel + 1, code :: rest, vm => (eval fuel code vm).bind (evalList fuel rest)
termination_by structural fuel _ _ => fuel

/-- Calling the fn pointer stored in a `Value::Native` (the table installed
by `Vm::new`). -/
def runNative : Nat → NativeTag → Vm → Res
  | _, .add, vm => add vm
  | _, .sub, vm => sub vm
  | _, .mul, vm => mul vm
  | _, .div, vm => div vm
  | _, .lt, vm => lt vm
  | 0, .opIf, _ => .fuel
  | fuel + 1, .opIf, vm => op_if fuel vm
  | 0, .opDef, _ => .fuel
  | fuel + 1, .opDef, vm => op_def fuel vm
  | _, .puts, vm => puts vm
  | _, .dup, vm => dup vm
  | _, .exch, vm => exch vm
termination_by structural fuel _ _ => fuel

/-- `fn op_if`: pop `false_branch`, `true_branch`, `cond` (all through
`to_block`), run `cond`, pop its result through `as_num`, then run the
branch selected by `result != 0`. -/
def op_if : Nat → Vm → Res
  | 0, _ => .fuel
  | fuel + 1, vm =>
    match vm.stack with
    | [] => .err .stackUnderflow
    | fV :: stack1 =>
      match fV.to_block with
      | .error e => .err e
      | .ok false_branch =>
        match stack1 with
        | [] => .err .stackUnderflow
        | tV :: stack2 =>
          match tV.to_block with
          | .error e => .err e
          | .ok true_branch =>
            match stack2 with
            | [] => .err .stackUnderflow
            | cV :: stack3 =>
              match cV.to_block with
              | .error e => .err e
              | .ok cond =>
                (evalList fuel cond { vm with stack := stack3 }).bind fun vm1 =>
                  match vm1.stack with
                  | [] => .err .stackUnderflow
                  | rV :: stack4 =>
                    match rV.as_num with
                    | .error e => .err e
                    | .ok cond_result =>
                      if cond_result ≠ 0 then
                        evalList fuel true_branch { vm1 with stack := stack4 }
                      else
                        evalList fuel false_branch { vm1 with stack := stack4 }
termination_by structural fuel _ => fuel

/-- `fn op_def`: pop the value, `eval` it against the remaining state, pop
the evaluated result, pop the symbol, insert. -/
def op_def : Nat → Vm → Res
  | 0, _ => .fuel
  | fuel + 1, vm =>
    match vm.stack with
    | [] => .err .stackUnderflow
    | value0 :: stack1 =>
      (eval fuel value0 { vm with stack := stack1 }).bind fun vm1 =>
        match vm1.stack with
        | [] => .err .stackUnderflow
        | value :: stack2 =>
          match stack2 with
          | [] => .err .stackUnderflow
          | symV :: stack3 =>
            match symV.as_sym with
            | .error e => .err e
            | .ok sym =>
              .ok { vm1 with stack := stack3, vars := varInsert vm1.vars sym value }
termination_by structural fuel _ => fuel

end

/-- Digit-string accumulation of `i32::from_str` (ASCII digits only). -/
def digitsVal : List Char → Nat → Option Nat
  | [], acc => some acc
  | c :: rest, acc =>
    if c.isDigit then digitsVal rest (10 * acc + (c.toNat - '0'.toNat)) else none

/-- Magnitude and range handling of `i32::from_str` after the sign. -/
def digitsToI32 (neg : Bool) (ds : List Char) : Option Int :=
  match ds with
  | [] => none
  | _ =>
    match digitsVal ds 0 with
    | none => none
    | some n =>
      if neg then (if n ≤ 2 ^ 31 then some (-(n : Int)) else none)
      else (if n < 2 ^ 31 then some (n : Int) else none)

/-- `word.parse::<i32>()`: optional single sign, then one or more ASCII
digits, and the value must fit in `i32`. -/
def parseI32 (s : String) : Option Int :=
  match s.data with
  | [] => none
  | '+' :: ds => digitsToI32 false ds
  | '-' :: ds => digitsToI32 true ds
  | ds => digitsToI32 false ds

/-- `fn parse_word`. `word[1..]` after an ASCII "/" is exactly dropping the
first character. -/
def parse_word (fuel : Nat) (word : String) (vm : Vm) : Res :=
  if word = "" then .ok vm
  else if word = "\x7b" then .ok { vm with blocks := [] :: vm.blocks }
  else if word = "\x7d" then
    match vm.blocks with
    | [] => .err .malformedBlock
    | block :: rest => eval fuel (.block block) { vm with blocks := rest }
  else if word = "　" then .ok vm
  else
    match parseI32 word with
    | some num => eval fuel (.num num) vm
    | none =>
      match word.data with
      | '/' :: rest => eval fuel (.sym ⟨rest⟩) vm
      | _ => eval fuel (.op word) vm

/-- `Vm::new`: the table of the ten built-ins. -/
def Vm.new : Vm :=
  ⟨[],
   [("+", .native .add), ("-", .native .sub), ("*", .native .mul),
    ("/", .native .div), ("<", .native .lt), ("if", .native .opIf),
    ("def", .native .opDef), ("puts", .native .puts), ("dup", .native .dup),
    ("exch", .native .exch)],
   [], []⟩

/-- One line of `parse_batch`/`parse_interactive`: split on single spaces,
feed each word to `parse_word`. -/
def processWords (fuel : Nat) (words : List String) (vm : Vm) : Res :=
  match words with
  | [] => .ok vm
  | w :: rest => (parse_word fuel w vm).bind (processWords fuel rest)

end Rustack

namespace Rustack

/-! ### General lemmas about the embedded operations -/

theorem varLookup_filter_ne (vars : List (String × Value)) (s k : String)
    (h : k ≠ s) :
    varLookup (vars.filter (fun kv => kv.1 != s)) k = varLookup vars k := by
  induction vars with
  | nil => rfl
  | cons kv rest ih =>
    obtain ⟨k', v'⟩ := kv
    by_cases hk : k' = s
    · subst hk
      have hke : ¬ (k' = k) := fun hc => h (hc ▸ rfl)
      simp only [List.filter_cons, bne_self_eq_false, if_false, ih,
        Bool.false_eq_true, ite_false]
      simp [varLookup, hke]
    · have hbne : (k' != s) = true := by simp [hk]
      simp only [List.filter_cons, hbne, if_true, ite_true]
      by_cases hkk : k' = k <;> simp [varLookup, hkk, ih]

theorem varLookup_varInsert_self (vars : List (String × Value)) (s : String)
    (w : Value) : varLookup (varInsert vars s w) s = some w := by
  simp [varInsert, varLookup]

theorem varLookup_varInsert_other (vars : List (String × Value))
    (s k : String) (w : Value) (h : k ≠ s) :
    varLookup (varInsert vars s w) k = varLookup vars k := by
  have hne : ¬ (s = k) := fun hc => h hc.symm
  simp [varInsert, varLookup, hne]
  exact varLookup_filter_ne vars s k h

theorem parseI32_slash (rest : List Char) : parseI32 ⟨'/' :: rest⟩ = none := rfl

theorem strMk_ne_of_data_ne {l : List Char} {s : String}
    (h : l ≠ s.data) : (⟨l⟩ : String) ≠ s := by
  intro hc
  exact h (congrArg String.data hc)

/-! ### Claim theorems -/

/-- C1 (counterexample to the claim as stated): evaluating the Operator
`nosuch`, which has no binding in an otherwise empty machine state, does NOT
signal any failure — `eval` returns `.ok` with the state unchanged. -/
theorem eval_unbound_op_counterexample :
    eval 1 (.op "nosuch") ⟨[], [], [], []⟩ = .ok ⟨[], [], [], []⟩ := rfl

/-- C1 (amended): evaluating an Operator value outside any in-progress
block whose name has no binding in `vars` silently leaves the whole machine
state unchanged: `eval` returns `.ok` on the very same state, signalling no
failure of any kind. -/
theorem eval_unbound_op_noop (fuel : Nat) (opName : String) (vm : Vm)
    (hb : vm.blocks = []) (hv : varLookup vm.vars opName = none) :
    eval (fuel + 1) (.op opName) vm = .ok vm := by
  obtain ⟨st, vars, bl, out⟩ := vm
  simp only at hb hv
  subst hb
  simp [eval, hv]

/-- Witness for C1's amended theorem at a concrete input. -/
theorem eval_unbound_op_noop_witness :
    ([] : List (List Value)) = [] ∧
      varLookup [] "nosuch" = none ∧
      eval 1 (.op "nosuch") ⟨[.num 7], [], [], []⟩ = .ok ⟨[.num 7], [], [], []⟩ :=
  ⟨rfl, rfl, eval_unbound_op_noop 0 "nosuch" ⟨[.num 7], [], [], []⟩ rfl rfl⟩

/-- C9: handing `parse_word` a word consisting of exactly the ideographic
space U+3000 is a no-op on the entire machine state, exactly as for the
empty word. -/
theorem parse_word_ideographic_space_noop (fuel : Nat) (vm : Vm) :
    parse_word fuel "　" vm = .ok vm ∧ parse_word fuel "" vm = .ok vm := by
  constructor <;> simp [parse_word]

/-- C5: while the block-accumulator stack is non-empty, `eval` appends the
value it is handed (whatever it is, completed inner Blocks included)
unevaluated to the innermost in-progress sequence and changes nothing else;
a close marker that completes a nested Block appends that Block unevaluated
to the enclosing sequence; and a Block completed at nesting level zero is
pushed onto the operand stack with its contents stored unevaluated. -/
theorem block_contents_never_evaluated :
    (∀ (fuel : Nat) (code : Value) (vm : Vm) (b : List Value)
        (bs : List (List Value)),
        vm.blocks = b :: bs →
        eval (fuel + 1) code vm = .ok { vm with blocks := (b ++ [code]) :: bs }) ∧
    (∀ (fuel : Nat) (vm : Vm) (b b' : List Value) (bs : List (List Value)),
        vm.blocks = b :: b' :: bs →
        parse_word (fuel + 1) "\x7d" vm =
          .ok { vm with blocks := (b' ++ [.block b]) :: bs }) ∧
    (∀ (fuel : Nat) (vm : Vm) (b : List Value),
        vm.blocks = [b] →
        parse_word (fuel + 1) "\x7d" vm =
          .ok { vm with stack := .block b :: vm.stack, blocks := [] }) := by
  refine ⟨?_, ?_, ?_⟩
  · intro fuel code vm b bs hb
    obtain ⟨st, vars, bl, out⟩ := vm
    simp only at hb
    subst hb
    simp [eval]
  · intro fuel vm b b' bs hb
    obtain ⟨st, vars, bl, out⟩ := vm
    simp only at hb
    subst hb
    simp [parse_word, eval]
  · intro fuel vm b hb
    obtain ⟨st, vars, bl, out⟩ := vm
    simp only at hb
    subst hb
    simp [parse_word, eval]

/-- Witness for C5 at concrete inputs. -/
theorem block_contents_never_evaluated_witness :
    ([[ .num 1 ]] : List (List Value)) = [[ .num 1 ]] ∧
      eval 1 (.num 2) ⟨[], [], [[.num 1]], []⟩ =
        .ok ⟨[], [], [[.num 1, .num 2]], []⟩ ∧
      parse_word 1 "\x7d" ⟨[], [], [[.num 3], [.num 1]], []⟩ =
        .ok ⟨[], [], [[.num 1, .block [.num 3]]], []⟩ ∧
      parse_word 1 "\x7d" ⟨[.num 0], [], [[.num 3, .num 4]], []⟩ =
        .ok ⟨[.block [.num 3, .num 4], .num 0], [], [], []⟩ :=
  ⟨rfl,
   block_contents_never_evaluated.1 0 (.num 2) ⟨[], [], [[.num 1]], []⟩ [.num 1] [] rfl,
   block_contents_never_evaluated.2.1 0 ⟨[], [], [[.num 3], [.num 1]], []⟩
     [.num 3] [.num 1] [] rfl,
   block_contents_never_evaluated.2.2 0 ⟨[.num 0], [], [[.num 3, .num 4]], []⟩
     [.num 3, .num 4] rfl⟩

/-- C7: a block-close word handed to `parse_word` while the block
accumulator stack is empty is the fatal malformed-input failure
`malformedBlock`, a failure kind distinct from every other failure kind of
the interpreter (in particular from `stackUnderflow`). -/
theorem close_without_open_malformed (fuel : Nat) (vm : Vm)
    (hb : vm.blocks = []) :
    parse_word fuel "\x7d" vm = .err .malformedBlock ∧
      Err.malformedBlock ≠ Err.stackUnderflow ∧
      Err.malformedBlock ≠ Err.notNumber ∧
      Err.malformedBlock ≠ Err.notBlock ∧
      Err.malformedBlock ≠ Err.notSymbol ∧
      Err.malformedBlock ≠ Err.divisionByZero ∧
      Err.malformedBlock ≠ Err.overflow := by
  obtain ⟨st, vars, bl, out⟩ := vm
  simp only at hb
  subst hb
  refine ⟨by simp [parse_word], by decide, by decide, by decide, by decide,
    by decide, by decide⟩

/-- Witness for C7 at a concrete input. -/
theorem close_without_open_malformed_witness :
    (([] : List (List Value)) = []) ∧
      parse_word 0 "\x7d" ⟨[.num 5], [], [], []⟩ = .err .malformedBlock :=
  ⟨rfl, (close_without_open_malformed 0 ⟨[.num 5], [], [], []⟩ rfl).1⟩

/-- C10: every word whose first character is the marker "/" (no such word
parses as an i32) is classified as a Symbol named by the remainder of the
word — the empty name for the lone "/" is accepted — and outside any
in-progress block that Symbol is pushed onto the operand stack. -/
theorem slash_word_is_symbol (fuel : Nat) (rest : List Char) (vm : Vm)
    (hb : vm.blocks = []) :
    parseI32 ⟨'/' :: rest⟩ = none ∧
      parse_word (fuel + 1) ⟨'/' :: rest⟩ vm =
        .ok { vm with stack := .sym ⟨rest⟩ :: vm.stack } := by
  obtain ⟨st, vars, bl, out⟩ := vm
  simp only at hb
  subst hb
  refine ⟨parseI32_slash rest, ?_⟩
  have h1 : (⟨'/' :: rest⟩ : String) ≠ "" :=
    strMk_ne_of_data_ne (by intro hc; exact List.noConfusion hc)
  have h2 : (⟨'/' :: rest⟩ : String) ≠ "\x7b" :=
    strMk_ne_of_data_ne (by intro hc; simp at hc)
  have h3 : (⟨'/' :: rest⟩ : String) ≠ "\x7d" :=
    strMk_ne_of_data_ne (by intro hc; simp at hc)
  have h4 : (⟨'/' :: rest⟩ : String) ≠ "　" :=
    strMk_ne_of_data_ne (by intro hc; simp at hc)
  rw [parse_word, if_neg h1, if_neg h2, if_neg h3, if_neg h4,
    parseI32_slash rest]
  simp [eval]

/-- Witness for C10 at the degenerate input "/" (empty symbol name). -/
theorem slash_word_is_symbol_witness :
    (([] : List (List Value)) = []) ∧
      parse_word 1 "/" ⟨[], [], [], []⟩ = .ok ⟨[.sym ""], [], [], []⟩ :=
  ⟨rfl, (slash_word_is_symbol 0 [] ⟨[], [], [], []⟩ rfl).2⟩

/-- C8: on any operand stack holding at least two elements, `dup` followed
by `exch` twice returns the machine to exactly the state it had right after
the `dup` (i.e. before those two `exch` calls), and `exch` twice in
succession is the identity on any such stack. -/
theorem dup_exch_exch_identity (v1 v2 : Value) (rest : List Value)
    (vars : List (String × Value)) (bl : List (List Value))
    (out : List String) :
    (dup ⟨v1 :: v2 :: rest, vars, bl, out⟩ =
        .ok ⟨v1 :: v1 :: v2 :: rest, vars, bl, out⟩) ∧
    ((dup ⟨v1 :: v2 :: rest, vars, bl, out⟩).bind
        (fun vmA => (exch vmA).bind exch) =
      dup ⟨v1 :: v2 :: rest, vars, bl, out⟩) ∧
    (∀ (w1 w2 : Value) (s : List Value),
        (exch ⟨w1 :: w2 :: s, vars, bl, out⟩).bind exch =
          .ok ⟨w1 :: w2 :: s, vars, bl, out⟩) := by
  refine ⟨rfl, ?_, ?_⟩
  · simp [dup, exch, Res.bind]
  · intro w1 w2 s
    simp [exch, Res.bind]

/-- C6: every one of the ten built-ins, invoked on an operand stack
shallower than what its contract pops, is the fatal `stackUnderflow`
failure — never a silent no-op.  Covered shapes: the empty stack for all
ten; a single (well-typed) operand for the two-operand operators
`+ - * / < exch`; one and two Blocks for the three-operand `if`; a single
self-pushing value for `def` (which needs a value and a symbol below it). -/
theorem builtin_underflow_fatal :
    (∀ (fuel : Nat) (t : NativeTag) (vars : List (String × Value))
        (bl : List (List Value)) (out : List String),
        runNative (fuel + 3) t ⟨[], vars, bl, out⟩ = .err .stackUnderflow) ∧
    (∀ (fuel : Nat) (t : NativeTag), t ∈ [NativeTag.add, .sub, .mul, .div, .lt] →
        ∀ (n : Int) (vars : List (String × Value)) (bl : List (List Value))
          (out : List String),
        runNative (fuel + 3) t ⟨[.num n], vars, bl, out⟩ = .err .stackUnderflow) ∧
    (∀ (fuel : Nat) (v : Value) (vars : List (String × Value))
        (bl : List (List Value)) (out : List String),
        runNative (fuel + 3) .exch ⟨[v], vars, bl, out⟩ = .err .stackUnderflow) ∧
    (∀ (fuel : Nat) (fb : List Value) (vars : List (String × Value))
        (bl : List (List Value)) (out : List String),
        runNative (fuel + 3) .opIf ⟨[.block fb], vars, bl, out⟩ =
          .err .stackUnderflow) ∧
    (∀ (fuel : Nat) (fb tb : List Value) (vars : List (String × Value))
        (bl : List (List Value)) (out : List String),
        runNative (fuel + 3) .opIf ⟨[.block fb, .block tb], vars, bl, out⟩ =
          .err .stackUnderflow) ∧
    (∀ (fuel : Nat) (n : Int) (vars : List (String × Value))
        (bl : List (List Value)) (out : List String),
        runNative (fuel + 3) .opDef ⟨[.num n], vars, bl, out⟩ =
          .err .stackUnderflow) := by
  refine ⟨?_, ?_, ?_, ?_, ?_, ?_⟩
  · intro fuel t vars bl out
    cases t <;>
      simp [runNative, op_if, op_def, add, sub, mul, div, lt, impl_op, dup,
        exch, puts]
  · intro fuel t ht n vars bl out
    simp only [List.mem_cons, List.not_mem_nil, or_false] at ht
    rcases ht with h | h | h | h | h <;> subst h <;>
      simp [runNative, add, sub, mul, div, lt, impl_op, Value.as_num]
  · intro fuel v vars bl out
    simp [runNative, exch]
  · intro fuel fb vars bl out
    simp [runNative, op_if, Value.to_block]
  · intro fuel fb tb vars bl out
    simp [runNative, op_if, Value.to_block]
  · intro fuel n vars bl out
    cases bl with
    | nil => simp [runNative, op_def, eval, Res.bind]
    | cons b bs => simp [runNative, op_def, eval, Res.bind]

/-- Witness for C6 at concrete inputs. -/
theorem builtin_underflow_fatal_witness :
    runNative 3 .puts ⟨[], [], [], []⟩ = .err .stackUnderflow ∧
      (NativeTag.add ∈ [NativeTag.add, .sub, .mul, .div, .lt]) ∧
      runNative 3 .add ⟨[.num 1], [], [], []⟩ = .err .stackUnderflow ∧
      runNative 3 .opIf ⟨[.block []], [], [], []⟩ = .err .stackUnderflow ∧
      runNative 3 .opDef ⟨[.num 9], [], [], []⟩ = .err .stackUnderflow :=
  ⟨builtin_underflow_fatal.1 0 .puts [] [] [],
   by simp,
   builtin_underflow_fatal.2.1 0 .add (by simp) 1 [] [] [],
   builtin_underflow_fatal.2.2.2.1 0 [] [] [] [],
   builtin_underflow_fatal.2.2.2.2.2 0 9 [] [] []⟩

/-- C3: with two Number operands on the stack (`lhs` pushed before `rhs`,
so `rhs` on top) each of `+ - * /` pops `rhs` then `lhs` and pushes the
Number `lhs <op> rhs` of exact signed 32-bit arithmetic (stated under the
no-overflow hypotheses that make the i32 result exact), `/` being
truncating integer division (`Int.tdiv`); a zero divisor is the fatal
`divisionByZero` failure, not a sentinel value; and a non-Number operand in
either position is the fatal `notNumber` type error (found for `rhs` before
`lhs` is even popped). -/
theorem arith_ops_exact (lhs rhs : Int) (rest : List Value)
    (vars : List (String × Value)) (bl : List (List Value))
    (out : List String) :
    (inI32 (lhs + rhs) →
        add ⟨.num rhs :: .num lhs :: rest, vars, bl, out⟩ =
          .ok ⟨.num (lhs + rhs) :: rest, vars, bl, out⟩) ∧
    (inI32 (lhs - rhs) →
        sub ⟨.num rhs :: .num lhs :: rest, vars, bl, out⟩ =
          .ok ⟨.num (lhs - rhs) :: rest, vars, bl, out⟩) ∧
    (inI32 (lhs * rhs) →
        mul ⟨.num rhs :: .num lhs :: rest, vars, bl, out⟩ =
          .ok ⟨.num (lhs * rhs) :: rest, vars, bl, out⟩) ∧
    (rhs ≠ 0 → inI32 (Int.tdiv lhs rhs) →
        div ⟨.num rhs :: .num lhs :: rest, vars, bl, out⟩ =
          .ok ⟨.num (Int.tdiv lhs rhs) :: rest, vars, bl, out⟩) ∧
    (rhs = 0 →
        div ⟨.num rhs :: .num lhs :: rest, vars, bl, out⟩ =
          .err .divisionByZero) ∧
    (∀ g, g ∈ [add, sub, mul, div] →
      (∀ (v : Value) (s1 : List Value),
          v.as_num = .error .notNumber →
          g ⟨v :: s1, vars, bl, out⟩ = .err .notNumber) ∧
      (∀ (n : Int) (v : Value) (s2 : List Value),
          v.as_num = .error .notNumber →
          g ⟨.num n :: v :: s2, vars, bl, out⟩ = .err .notNumber)) := by
  refine ⟨?_, ?_, ?_, ?_, ?_, ?_⟩
  · intro h
    have hc : checkI32 (lhs + rhs) = .ok (lhs + rhs) := by
      simp only [checkI32]
      rw [if_pos h]
    simp [add, impl_op, Value.as_num, hc]
  · intro h
    have hc : checkI32 (lhs - rhs) = .ok (lhs - rhs) := by
      simp only [checkI32]
      rw [if_pos h]
    simp [sub, impl_op, Value.as_num, hc]
  · intro h
    have hc : checkI32 (lhs * rhs) = .ok (lhs * rhs) := by
      simp only [checkI32]
      rw [if_pos h]
    simp [mul, impl_op, Value.as_num, hc]
  · intro h0 h
    have hc : checkI32 (Int.tdiv lhs rhs) = .ok (Int.tdiv lhs rhs) := by
      simp only [checkI32]
      rw [if_pos h]
    simp [div, impl_op, Value.as_num, h0, hc]
  · intro h0
    simp [div, impl_op, Value.as_num, h0]
  · intro g hg
    simp only [List.mem_cons, List.not_mem_nil, or_false] at hg
    have hnum : ∀ (m : Int), (Value.num m).as_num = .ok m := fun _ => rfl
    rcases hg with h | h | h | h <;> subst h <;>
      exact ⟨fun v s1 hv => by simp [add, sub, mul, div, impl_op, hv],
             fun n v s2 hv => by simp [add, sub, mul, div, impl_op, hnum, hv]⟩

/-- Witness for C3 at concrete inputs (truncation of `-7 / 2` included). -/
theorem arith_ops_exact_witness :
    (inI32 ((-7 : Int) + 2) ∧ inI32 (Int.tdiv (-7) 2) ∧ (2 : Int) ≠ 0 ∧
        ((0 : Int) = 0) ∧ (Value.block []).as_num = .error .notNumber ∧
        div ∈ [add, sub, mul, div]) ∧
      add ⟨[.num 2, .num (-7)], [], [], []⟩ = .ok ⟨[.num (-5)], [], [], []⟩ ∧
      div ⟨[.num 2, .num (-7)], [], [], []⟩ = .ok ⟨[.num (-3)], [], [], []⟩ ∧
      div ⟨[.num 0, .num 9], [], [], []⟩ = .err .divisionByZero ∧
      div ⟨[.block [], .num 9], [], [], []⟩ = .err .notNumber :=
  ⟨⟨by decide, by decide, by decide, rfl, rfl, by simp⟩,
   (arith_ops_exact (-7) 2 [] [] [] []).1 (by decide),
   (arith_ops_exact (-7) 2 [] [] [] []).2.2.2.1 (by decide) (by decide),
   (arith_ops_exact 9 0 [] [] [] []).2.2.2.2.1 rfl,
   ((arith_ops_exact 9 0 [] [] [] []).2.2.2.2.2 div (by simp)).1
     (.block []) [.num 9] rfl⟩

/-- C2: `def` outside any in-progress block pops the value-to-bind,
evaluates it against the remaining state, pops the evaluated result, pops a
Symbol, and inserts/overwrites that name in the bindings with the evaluated
value — in that order.  In particular (second conjunct) binding a name whose
value expression is an Operator referring to another binding stores that
binding's value, not the raw operator token; the last two conjuncts state
the insert/overwrite semantics of the binding update itself. -/
theorem op_def_eval_then_bind :
    (∀ (fuel : Nat) (v : Value) (rest : List Value)
        (vars : List (String × Value)) (out : List String) (vm1 : Vm)
        (w : Value) (s : String) (s2 : List Value),
        eval fuel v ⟨rest, vars, [], out⟩ = .ok vm1 →
        vm1.stack = w :: .sym s :: s2 →
        op_def (fuel + 1) ⟨v :: rest, vars, [], out⟩ =
          .ok ⟨s2, varInsert vm1.vars s w, vm1.blocks, vm1.output⟩) ∧
    (∀ (fuel : Nat) (y : String) (w : Value) (s : String) (rest : List Value)
        (vars : List (String × Value)) (out : List String),
        varLookup vars y = some w →
        (∀ bs, w ≠ .block bs) → (∀ t, w ≠ .native t) →
        op_def (fuel + 2) ⟨.op y :: .sym s :: rest, vars, [], out⟩ =
          .ok ⟨rest, varInsert vars s w, [], out⟩) ∧
    (∀ (vars : List (String × Value)) (s : String) (w : Value),
        varLookup (varInsert vars s w) s = some w) ∧
    (∀ (vars : List (String × Value)) (s k : String) (w : Value), k ≠ s →
        varLookup (varInsert vars s w) k = varLookup vars k) := by
  refine ⟨?_, ?_, varLookup_varInsert_self, ?_⟩
  · intro fuel v rest vars out vm1 w s s2 h1 h2
    obtain ⟨st1, vr1, bl1, o1⟩ := vm1
    simp only at h2
    subst h2
    simp [op_def, h1, Res.bind, Value.as_sym]
  · intro fuel y w s rest vars out hvl hb hn
    cases w with
    | block bs => exact absurd rfl (hb bs)
    | native t => exact absurd rfl (hn t)
    | num m => simp [op_def, eval, hvl, Res.bind, Value.as_sym]
    | op o => simp [op_def, eval, hvl, Res.bind, Value.as_sym]
    | sym sy => simp [op_def, eval, hvl, Res.bind, Value.as_sym]
  · intro vars s k w hk
    exact varLookup_varInsert_other vars s k w hk

/-- Witness for C2: binding a plain value, and binding through an Operator
that refers to another binding. -/
theorem op_def_eval_then_bind_witness :
    (eval 1 (.num 10) ⟨[.sym "x"], [], [], []⟩ =
        .ok ⟨[.num 10, .sym "x"], [], [], []⟩) ∧
      op_def 2 ⟨[.num 10, .sym "x"], [], [], []⟩ =
        .ok ⟨[], [("x", .num 10)], [], []⟩ ∧
      varLookup [("y", Value.num 5)] "y" = some (.num 5) ∧
      op_def 3 ⟨[.op "y", .sym "x"], [("y", .num 5)], [], []⟩ =
        .ok ⟨[], [("x", .num 5), ("y", .num 5)], [], []⟩ :=
  ⟨rfl,
   (op_def_eval_then_bind.1 1 (.num 10) [.sym "x"] [] []
      ⟨[.num 10, .sym "x"], [], [], []⟩ (.num 10) "x" [] rfl rfl).trans (by rfl),
   rfl,
   (op_def_eval_then_bind.2.1 1 "y" (.num 5) "x" [] [("y", .num 5)] [] rfl
      (fun bs => by simp) (fun t => by simp)).trans (by rfl)⟩

/-- C4: `if` pops `false_branch`, `true_branch`, `cond` in that order (each
must be a Block, else the fatal `notBlock` type error, detected at the
first offending position); it runs every element of `cond` against the
current state, pops the resulting top of stack (which must be a Number,
else the fatal `notNumber` error), and runs every element of `true_branch`
iff that Number is nonzero, of `false_branch` iff it is zero. -/
theorem op_if_contract :
    (∀ (fuel : Nat) (c t f rest : List Value) (vars : List (String × Value))
        (bl : List (List Value)) (out : List String) (vm1 : Vm) (n : Int)
        (s4 : List Value),
        evalList fuel c ⟨rest, vars, bl, out⟩ = .ok vm1 →
        vm1.stack = .num n :: s4 →
        op_if (fuel + 1)
            ⟨.block f :: .block t :: .block c :: rest, vars, bl, out⟩ =
          (if n ≠ 0 then evalList fuel t { vm1 with stack := s4 }
           else evalList fuel f { vm1 with stack := s4 })) ∧
    (∀ (fuel : Nat) (v : Value) (s : List Value) (vars : List (String × Value))
        (bl : List (List Value)) (out : List String),
        (∀ bs, v ≠ Value.block bs) →
        op_if (fuel + 1) ⟨v :: s, vars, bl, out⟩ = .err .notBlock) ∧
    (∀ (fuel : Nat) (fb : List Value) (v : Value) (s : List Value)
        (vars : List (String × Value)) (bl : List (List Value))
        (out : List String),
        (∀ bs, v ≠ Value.block bs) →
        op_if (fuel + 1) ⟨.block fb :: v :: s, vars, bl, out⟩ =
          .err .notBlock) ∧
    (∀ (fuel : Nat) (fb tb : List Value) (v : Value) (s : List Value)
        (vars : List (String × Value)) (bl : List (List Value))
        (out : List String),
        (∀ bs, v ≠ Value.block bs) →
        op_if (fuel + 1) ⟨.block fb :: .block tb :: v :: s, vars, bl, out⟩ =
          .err .notBlock) ∧
    (∀ (fuel : Nat) (c t f rest : List Value) (vars : List (String × Value))
        (bl : List (List Value)) (out : List String) (vm1 : Vm) (v : Value)
        (s4 : List Value),
        evalList fuel c ⟨rest, vars, bl, out⟩ = .ok vm1 →
        vm1.stack = v :: s4 → (∀ m, v ≠ .num m) →
        op_if (fuel + 1)
            ⟨.block f :: .block t :: .block c :: rest, vars, bl, out⟩ =
          .err .notNumber) := by
  refine ⟨?_, ?_, ?_, ?_, ?_⟩
  · intro fuel c t f rest vars bl out vm1 n s4 h1 h2
    obtain ⟨st1, vr1, bl1, o1⟩ := vm1
    simp only at h2
    subst h2
    simp [op_if, Value.to_block, h1, Res.bind, Value.as_num]
  · intro fuel v s vars bl out hv
    cases v with
    | block bs => exact absurd rfl (hv bs)
    | _ => simp [op_if, Value.to_block]
  · intro fuel fb v s vars bl out hv
    cases v with
    | block bs => exact absurd rfl (hv bs)
    | _ => simp [op_if, Value.to_block]
  · intro fuel fb tb v s vars bl out hv
    cases v with
    | block bs => exact absurd rfl (hv bs)
    | _ => simp [op_if, Value.to_block]
  · intro fuel c t f rest vars bl out vm1 v s4 h1 h2 hv
    obtain ⟨st1, vr1, bl1, o1⟩ := vm1
    simp only at h2
    subst h2
    cases v with
    | num m => exact absurd rfl (hv m)
    | _ => simp [op_if, Value.to_block, h1, Res.bind, Value.as_num]

/-- Witness for C4: the spec's two condition examples — cond `1` (nonzero
picks the true branch) and cond `0` (picks the false branch). -/
theorem op_if_contract_witness :
    (evalList 2 [.num 1] ⟨[], [], [], []⟩ = .ok ⟨[.num 1], [], [], []⟩) ∧
      op_if 3 ⟨[.block [.num (-1)], .block [.num 1], .block [.num 1]],
          [], [], []⟩ = .ok ⟨[.num 1], [], [], []⟩ ∧
      op_if 3 ⟨[.block [.num (-1)], .block [.num 1], .block [.num 0]],
          [], [], []⟩ = .ok ⟨[.num (-1)], [], [], []⟩ :=
  ⟨rfl,
   (op_if_contract.1 2 [.num 1] [.num 1] [.num (-1)] [] [] [] []
      ⟨[.num 1], [], [], []⟩ 1 [] rfl rfl).trans
     (by rw [if_pos (show (1 : Int) ≠ 0 by decide)]; rfl),
   (op_if_contract.1 2 [.num 0] [.num 1] [.num (-1)] [] [] [] []
      ⟨[.num 0], [], [], []⟩ 0 [] rfl rfl).trans
     (by rw [if_neg (show ¬ (0 : Int) ≠ 0 by decide)]; rfl)⟩
